import Mathlib

/-!
Shallow embedding of the cashferatu-cli simulation core.

Numbers (JS doubles) are modelled as exact rationals `ℚ`; dates are modelled
as rational timestamps in milliseconds since the epoch.  The ambient clock
(`DateTime.nowAsDate` / `DateTime.now`) is an explicit parameter `now : ℚ`,
and the keyed PRNG (`Random.make key`) is an explicit parameter
`rand : String → ℕ → ℚ` giving the i-th sample drawn from the stream for a
given key.  Source files embedded: src/util/Jitter.ts (applyDateJitter,
applyValueJitter), src/util/Date.ts (daysBetweenDates, daysFromToday),
src/services/Prediction-Service.ts (GeneratePredictionsFn,
GroupPredictionsByRunIndexFn, ComputeBalanceForRunFn,
PredictionsService.generate — the seeded variant with startingBalance),
src/services/Percentiles.ts (GetPercentile, ReduceToPercentiles), and the
default configuration from src/domain/Simulation.ts.
-/

namespace Cashferatu

/-- JavaScript `Math.round`: round to nearest integer, ties toward `+∞`
(`Math.round x = ⌊x + 0.5⌋`; note `Math.round (-0.5) = -0`, and `-0` compares
as `0 ≥ 0` in the day-offset filter, matching `⌊0⌋ = 0` here). -/
def roundJS (x : ℚ) : ℤ := ⌊x + 1/2⌋

/-- `parseFloat(x.toFixed(3))`: round to 3 decimal places.  `toFixed` picks
the closest value on the `1/1000` grid, ties resolved toward the larger
candidate, which coincides with `roundJS` applied at the third decimal. -/
def round3 (x : ℚ) : ℚ := (roundJS (x * 1000) : ℚ) / 1000

/-- Milliseconds per day, the unit conversion used by `Duration.toDays` and
by `DateTime.add { days }`. -/
def msPerDay : ℚ := 86400000

/-- src/domain/Cash-Event.ts: a cash event. `value` is the signed amount and
`date` the event timestamp in ms. -/
structure CashEvent where
  ID : String
  label : String
  value : ℚ
  date : ℚ
  deriving DecidableEq, Repr

/-- src/domain/Simulation.ts `PredictionSchema`. -/
structure Prediction where
  run : ℤ
  occursOn : ℚ
  value : ℚ
  deriving DecidableEq, Repr

/-- src/domain/Simulation.ts `SimulationRunSchema`. -/
structure SimulationRun where
  runIndex : ℤ
  predictions : List Prediction
  balanceSeries : List ℚ
  deriving DecidableEq, Repr

/-- src/domain/Simulation.ts `PercentileDaySchema`. -/
structure PercentileDay where
  day : ℕ
  p10 : ℚ
  p25 : ℚ
  p50 : ℚ
  p75 : ℚ
  p90 : ℚ
  deriving DecidableEq, Repr

/-- src/domain/Simulation.ts `SimulationOptionsSchema` plus the optional
`startingBalance` consumed by `PredictionsService.generate`.  All fields are
optional at the boundary. -/
structure SimulationOptions where
  runCount : Option ℤ := none
  runLength : Option ℤ := none
  dateVarianceDays : Option ℚ := none
  valueVariancePct : Option ℚ := none
  startingBalance : Option ℚ := none
  deriving DecidableEq, Repr

/-- A keyed random source: `rand key i` is the i-th uniform sample drawn from
the PRNG stream `Random.make key`. -/
def RandomSource : Type := String → ℕ → ℚ

/-- src/util/Jitter.ts `applyValueJitter`, with the consumed uniform sample
`r` made explicit: `factor = 2·(maxVariancePercent/100)·r −
maxVariancePercent/100`, result `v + v·factor`. -/
def applyValueJitter (v maxVariancePercent r : ℚ) : ℚ :=
  let randomFactor := 2 * (maxVariancePercent / 100) * r - maxVariancePercent / 100
  v + v * randomFactor

/-- src/util/Jitter.ts `applyDateJitter`, with the consumed uniform sample
`r` made explicit: `randomDays = round(2·maxDayVariance·r − maxDayVariance)`,
then `DateTime.add { days: randomDays }`. -/
def applyDateJitter (d maxDayVariance r : ℚ) : ℚ :=
  let randomDays := roundJS (2 * maxDayVariance * r - maxDayVariance)
  d + (randomDays : ℚ) * msPerDay

/-- src/util/Date.ts `daysBetweenDates`: signed distance from `a` to `b` in
(fractional) days. -/
def daysBetweenDates (a b : ℚ) : ℚ := (b - a) / msPerDay

/-- src/util/Date.ts `daysFromToday` with the ambient `now` made explicit. -/
def daysFromToday (now whenAt : ℚ) : ℚ := daysBetweenDates now whenAt

/-- The PRNG key built in `GeneratePredictionsFn`:
`Random.make(`${seed}-${run}-${event.ID}`)`. -/
def seedKey (seed : String) (run : ℤ) (id : String) : String :=
  seed ++ "-" ++ toString run ++ "-" ++ id

/-- The list `0, 1, …, n−1` of JS loop indices (`for run = 0; run < n; run++`;
empty when `n ≤ 0`). -/
def intRange (n : ℤ) : List ℤ := (List.range n.toNat).map Int.ofNat

/-- The single prediction built for one `(run, event)` pair inside
`GeneratePredictionsFn`: the value jitter consumes the first sample of the
stream keyed by `seedKey seed run e.ID`, the date jitter the second. -/
def predFor (rand : RandomSource) (seed : String) (dateVarianceDays valueVariancePct : ℚ)
    (run : ℤ) (e : CashEvent) : Prediction :=
  { run := run
  , occursOn := applyDateJitter e.date dateVarianceDays (rand (seedKey seed run e.ID) 1)
  , value := applyValueJitter e.value valueVariancePct (rand (seedKey seed run e.ID) 0) }

/-- src/services/Prediction-Service.ts `GeneratePredictionsFn`: the nested
event/run loops pushing predictions, skipping events with `event.date < today`
(`today = DateTime.nowAsDate`, the full current timestamp). -/
def generatePredictions (rand : RandomSource) (events : List CashEvent)
    (runCount : ℤ) (dateVarianceDays valueVariancePct : ℚ)
    (seed : String) (now : ℚ) : List Prediction :=
  events.foldl
    (fun predictions e =>
      if e.date < now then predictions
      else predictions ++
        (intRange runCount).map fun run =>
          predFor rand seed dateVarianceDays valueVariancePct run e)
    []

/-- src/services/Prediction-Service.ts `GroupPredictionsByRunIndexFn`
followed by `byRun.get(runIndex) ?? []`: the predictions of one run, in
insertion order. -/
def groupPredictionsByRunIndex (predictions : List Prediction) (runIndex : ℤ) :
    List Prediction :=
  predictions.filter fun p => p.run == runIndex

/-- The rounded day offset of a prediction computed in
`ComputeBalanceForRunFn`: `Math.round(daysFromToday(p.occursOn))`. -/
def dayOffsetOf (now : ℚ) (p : Prediction) : ℤ := roundJS (daysFromToday now p.occursOn)

/-- The `reduce` in `ComputeBalanceForRunFn`: fold the in-window
`(dayOffset, value)` pairs into the accumulator by `acc[dayOffset] += value`. -/
def applyDeltas (pairs : List (ℤ × ℚ)) (init : List ℚ) : List ℚ :=
  pairs.foldl (fun acc pr => acc.set pr.1.toNat (acc.getD pr.1.toNat 0 + pr.2)) init

/-- Helper for the cumulation loop: given the previous balance, turn the
remaining deltas into running balances. -/
def cumGo (prev : ℚ) : List ℚ → List ℚ
  | [] => []
  | d :: ds => (prev + d) :: cumGo (prev + d) ds

/-- The cumulation loop of `ComputeBalanceForRunFn`:
`balance[0] = startingBalance + delta[0]`, `balance[i] = balance[i-1] + delta[i]`. -/
def cumulate (startingBalance : ℚ) : List ℚ → List ℚ
  | [] => []
  | d :: ds => (startingBalance + d) :: cumGo (startingBalance + d) ds

/-- src/services/Prediction-Service.ts `ComputeBalanceForRunFn`, body for one
run index: map predictions to rounded day offsets, keep
`0 ≤ dayOffset < runLength`, accumulate same-day values into a zero-filled
array of length `runLength`, then cumulate with the starting balance. -/
def computeBalanceForRun (now : ℚ) (runLength : ℤ) (startingBalance : ℚ)
    (preds : List Prediction) : List ℚ :=
  let dayOffsetPairs := preds.map fun p => (dayOffsetOf now p, p.value)
  let inWindow := dayOffsetPairs.filter fun pr => decide (0 ≤ pr.1) && decide (pr.1 < runLength)
  let delta := applyDeltas inWindow (List.replicate runLength.toNat 0)
  cumulate startingBalance delta

/-- src/services/Prediction-Service.ts `ComputeBalanceForRunFn`: one balance
series per run index `0 .. runCount−1`. -/
def computeBalance (now : ℚ) (runCount runLength : ℤ) (startingBalance : ℚ)
    (predictions : List Prediction) : List (List ℚ) :=
  (intRange runCount).map fun runIndex =>
    computeBalanceForRun now runLength startingBalance
      (groupPredictionsByRunIndex predictions runIndex)

/-- The value returned by `PredictionsService.generate`. -/
structure GenerateResult where
  runs : List SimulationRun
  runCount : ℤ
  runLength : ℤ
  deriving DecidableEq, Repr

/-- src/services/Prediction-Service.ts `PredictionsService.generate`:
resolve defaults (runCount 20, runLength 60, valueVariancePct 20,
dateVarianceDays 10 from `DefaultSimulationConfig`; startingBalance 0),
generate predictions, group by run, compute balance series, and assemble the
runs. -/
def generate (rand : RandomSource) (events : List CashEvent)
    (opts : SimulationOptions) (seed : String) (now : ℚ) : GenerateResult :=
  let RUN_COUNT := opts.runCount.getD 20
  let RUN_LENGTH := opts.runLength.getD 60
  let VALUE_VARIANCE := opts.valueVariancePct.getD 20
  let DATE_VARIANCE := opts.dateVarianceDays.getD 10
  let STARTING_BALANCE := opts.startingBalance.getD 0
  let predictions :=
    generatePredictions rand events RUN_COUNT DATE_VARIANCE VALUE_VARIANCE seed now
  let balanceSeriesList :=
    computeBalance now RUN_COUNT RUN_LENGTH STARTING_BALANCE predictions
  { runs := (intRange RUN_COUNT).map fun i =>
      { runIndex := i
      , predictions := groupPredictionsByRunIndex predictions i
      , balanceSeries := balanceSeriesList.getD i.toNat [] }
  , runCount := RUN_COUNT
  , runLength := RUN_LENGTH }

/-- src/services/Percentiles.ts `GetPercentile`: linear interpolation between
order statistics of an (already sorted) sample; the interpolated branch is
rounded to 3 decimals by `parseFloat(result.toFixed(3))`, the exact-rank
branch is returned unrounded. -/
def getPercentile (sorted : List ℚ) (percentile : ℚ) : ℚ :=
  let idx := percentile / 100 * ((sorted.length : ℚ) - 1)
  let lower := ⌊idx⌋
  let upper := ⌈idx⌉
  if lower = upper then sorted.getD lower.toNat 0
  else
    let weight := idx - (lower : ℚ)
    round3 (sorted.getD lower.toNat 0 * (1 - weight) + sorted.getD upper.toNat 0 * weight)

/-- The ascending numeric sort `.slice().sort((a, b) => a - b)` used on each
day's sample. -/
def sortBalances (l : List ℚ) : List ℚ := l.mergeSort fun a b => decide (a ≤ b)

/-- src/services/Percentiles.ts `ReduceToPercentiles`: run length taken from
the first run (0 when there are no runs); for each day index collect the
balances of every run at that day, sort ascending, and read off the five
percentiles. -/
def reduceToPercentiles (runs : List SimulationRun) : List PercentileDay :=
  let runLength := ((runs.head?.map fun r => r.balanceSeries.length).getD 0)
  (List.range runLength).map fun dayIndex =>
    let balancesAtDay := sortBalances (runs.map fun run => run.balanceSeries.getD dayIndex 0)
    { day := dayIndex
    , p10 := getPercentile balancesAtDay 10
    , p25 := getPercentile balancesAtDay 25
    , p50 := getPercentile balancesAtDay 50
    , p75 := getPercentile balancesAtDay 75
    , p90 := getPercentile balancesAtDay 90 }

/-- The forecast assembled by `SimulationService.generate`: the percentile
reduction of the runs produced by `PredictionsService.generate`. -/
def simulationForecast (rand : RandomSource) (events : List CashEvent)
    (opts : SimulationOptions) (seed : String) (now : ℚ) : List PercentileDay :=
  reduceToPercentiles (generate rand events opts seed now).runs

/-- Midnight at the start of the day containing timestamp `t` ("today at day
granularity"). -/
def startOfDay (t : ℚ) : ℚ := (⌊t / msPerDay⌋ : ℚ) * msPerDay

/-- The block of predictions one event contributes inside the loop of
`GeneratePredictionsFn`: nothing when the event is past, otherwise one
prediction per run index. -/
def predsFor (rand : RandomSource) (seed : String) (dateVarianceDays valueVariancePct : ℚ)
    (runCount : ℤ) (now : ℚ) (e : CashEvent) : List Prediction :=
  if e.date < now then []
  else (intRange runCount).map fun run =>
    predFor rand seed dateVarianceDays valueVariancePct run e

/-- The fractional rank index used by `GetPercentile`:
`idx = (percentile/100)·(n−1)`. -/
def rankIndex (sorted : List ℚ) (percentile : ℚ) : ℚ :=
  percentile / 100 * ((sorted.length : ℚ) - 1)

/-- Linear interpolation of a sample at fractional rank `t`:
`sorted[⌊t⌋]·(1−w) + sorted[⌈t⌉]·w` with `w = t − ⌊t⌋`.  This is the exact
(unrounded) value the spec's percentile formula describes. -/
def interpAt (sorted : List ℚ) (t : ℚ) : ℚ :=
  sorted.getD ⌊t⌋.toNat 0 * (1 - (t - (⌊t⌋ : ℚ))) + sorted.getD ⌈t⌉.toNat 0 * (t - (⌊t⌋ : ℚ))

/-- A rational carries at most 3 decimal places (lies on the `1/1000` grid). -/
def grid3 (x : ℚ) : Prop := (x * 1000).den = 1

instance : DecidablePred grid3 := fun x => inferInstanceAs (Decidable ((x * 1000).den = 1))

/-- The in-window `(dayOffset, value)` pairs of a prediction list, as
filtered by `ComputeBalanceForRunFn`. -/
def inWindowPairs (now : ℚ) (runLength : ℤ) (preds : List Prediction) : List (ℤ × ℚ) :=
  (preds.map fun p => (dayOffsetOf now p, p.value)).filter fun pr =>
    decide (0 ≤ pr.1) && decide (pr.1 < runLength)

/-- The per-day delta: sum of the values of the pairs bucketed at day `d`. -/
def sumDeltaAt (pairs : List (ℤ × ℚ)) (d : ℕ) : ℚ :=
  ((pairs.filter fun pr => pr.1.toNat == d).map Prod.snd).sum

/-- Default `PercentileDay` used with `List.getD`. -/
def pdDefault : PercentileDay := { day := 0, p10 := 0, p25 := 0, p50 := 0, p75 := 0, p90 := 0 }

/-- Build a bare run holding a balance series (the reducer only reads
`balanceSeries`). -/
def runOf (i : ℤ) (bs : List ℚ) : SimulationRun :=
  { runIndex := i, predictions := [], balanceSeries := bs }

/-- The spec's concrete percentile-reduction scenario: five runs with the
given three-day balance series. -/
def exampleRuns : List SimulationRun :=
  [runOf 0 [100, 150, 200], runOf 1 [200, 250, 300], runOf 2 [300, 350, 400],
   runOf 3 [400, 450, 500], runOf 4 [500, 550, 600]]

/-- Three identical runs whose single balance value `0.0006` is not on the
`1/1000` grid. -/
def roundingRuns : List SimulationRun :=
  [runOf 0 [6/10000], runOf 1 [6/10000], runOf 2 [6/10000]]

/-- A cash event dated at the epoch with a value off the `1/1000` grid. -/
def epsilonEvent : CashEvent := { ID := "a", label := "x", value := 6/10000, date := 0 }

/-- Options requesting 3 runs of length 1 with both variances 0. -/
def zeroVarianceOpts : SimulationOptions :=
  { runCount := some 3, runLength := some 1, dateVarianceDays := some 0,
    valueVariancePct := some 0, startingBalance := some 0 }

/-- A constant random source. -/
def constHalfRand : RandomSource := fun _ _ => 1/2

/-- Options with a non-positive `runCount` (and a positive `runLength`). -/
def zeroRunCountOpts : SimulationOptions :=
  { runCount := some 0, runLength := some 5 }

/-- An event one day before the epoch. -/
def pastEvent : CashEvent := { ID := "p", label := "past", value := 100, date := -86400000 }

/-- Noon of day 0, as a timestamp: a "now" whose start of day is the epoch. -/
def noonNow : ℚ := 43200000

/-- A sorted two-element sample whose midpoint is not on the `1/1000` grid. -/
def offGridSample : List ℚ := [0, 3/10000]

/-- Three same-day predictions with values 1000, −500, 300 occurring at the
epoch (day offset 0). -/
def examplePreds : List Prediction :=
  [{ run := 0, occursOn := 0, value := 1000 },
   { run := 0, occursOn := 0, value := -500 },
   { run := 0, occursOn := 0, value := 300 }]

set_option maxRecDepth 100000

/-! Basic arithmetic lemmas about the rounding helpers. -/

theorem roundJS_mono {x y : ℚ} (h : x ≤ y) : roundJS x ≤ roundJS y :=
  Int.floor_le_floor (by linarith)

theorem round3_mono {x y : ℚ} (h : x ≤ y) : round3 x ≤ round3 y := by
  unfold round3
  have h1 : roundJS (x * 1000) ≤ roundJS (y * 1000) := roundJS_mono (by linarith)
  have h2 : ((roundJS (x * 1000) : ℤ) : ℚ) ≤ ((roundJS (y * 1000) : ℤ) : ℚ) := by
    exact_mod_cast h1
  linarith

theorem grid3_num_cast {x : ℚ} (h : grid3 x) : (((x * 1000).num : ℤ) : ℚ) = x * 1000 :=
  Rat.coe_int_num_of_den_eq_one h

theorem round3_of_grid3 {x : ℚ} (h : grid3 x) : round3 x = x := by
  unfold round3 roundJS
  rw [← grid3_num_cast h, Int.floor_int_add, show ⌊(1:ℚ)/2⌋ = 0 by norm_num, add_zero,
    grid3_num_cast h]
  field_simp

theorem grid3_zero : grid3 0 := by
  unfold grid3
  norm_num

/-! Length lemmas for the run aggregator. -/

theorem length_cumGo (prev : ℚ) (l : List ℚ) : (cumGo prev l).length = l.length := by
  induction l generalizing prev with
  | nil => rfl
  | cons d ds ih => simp [cumGo, ih]

theorem length_cumulate (sb : ℚ) (l : List ℚ) : (cumulate sb l).length = l.length := by
  cases l with
  | nil => rfl
  | cons d ds => simp [cumulate, length_cumGo]

theorem applyDeltas_cons (pr : ℤ × ℚ) (rest : List (ℤ × ℚ)) (init : List ℚ) :
    applyDeltas (pr :: rest) init
      = applyDeltas rest (init.set pr.1.toNat (init.getD pr.1.toNat 0 + pr.2)) := rfl

theorem length_applyDeltas (pairs : List (ℤ × ℚ)) (init : List ℚ) :
    (applyDeltas pairs init).length = init.length := by
  induction pairs generalizing init with
  | nil => rfl
  | cons pr rest ih => rw [applyDeltas_cons, ih, List.length_set]

theorem length_computeBalanceForRun (now : ℚ) (L : ℤ) (sb : ℚ) (preds : List Prediction) :
    (computeBalanceForRun now L sb preds).length = L.toNat := by
  unfold computeBalanceForRun
  rw [length_cumulate, length_applyDeltas, List.length_replicate]

/-! Structure of the prediction generator. -/

theorem generatePredictions_nil (rand : RandomSource) (rc : ℤ) (dv vv : ℚ)
    (seed : String) (now : ℚ) :
    generatePredictions rand [] rc dv vv seed now = [] := rfl

theorem generatePredictions_step (rand : RandomSource) (rc : ℤ) (dv vv : ℚ)
    (seed : String) (now : ℚ) (e : CashEvent) (acc : List Prediction) :
    (if e.date < now then acc
     else acc ++ (intRange rc).map fun run => predFor rand seed dv vv run e)
    = acc ++ predsFor rand seed dv vv rc now e := by
  unfold predsFor
  by_cases hpast : e.date < now
  · simp [hpast]
  · simp [hpast]

theorem generatePredictions_foldl_acc (rand : RandomSource) (rc : ℤ) (dv vv : ℚ)
    (seed : String) (now : ℚ) (events : List CashEvent) (acc : List Prediction) :
    events.foldl
      (fun predictions e =>
        if e.date < now then predictions
        else predictions ++ (intRange rc).map fun run => predFor rand seed dv vv run e)
      acc
    = acc ++ generatePredictions rand events rc dv vv seed now := by
  induction events generalizing acc with
  | nil => simp [generatePredictions]
  | cons e es ih =>
    unfold generatePredictions
    rw [List.foldl_cons, List.foldl_cons, ih, generatePredictions_step,
      generatePredictions_step, List.nil_append,
      show List.foldl _ (predsFor rand seed dv vv rc now e) es
          = List.foldl
              (fun predictions e =>
                if e.date < now then predictions
                else predictions ++ (intRange rc).map fun run => predFor rand seed dv vv run e)
              (predsFor rand seed dv vv rc now e) es from rfl,
      ih, List.append_assoc]

theorem generatePredictions_cons (rand : RandomSource) (rc : ℤ) (dv vv : ℚ)
    (seed : String) (now : ℚ) (e : CashEvent) (es : List CashEvent) :
    generatePredictions rand (e :: es) rc dv vv seed now
      = predsFor rand seed dv vv rc now e ++ generatePredictions rand es rc dv vv seed now := by
  show List.foldl _ (if e.date < now then [] else [] ++ _) es = _
  rw [generatePredictions_step, List.nil_append]
  exact generatePredictions_foldl_acc rand rc dv vv seed now es _

theorem length_intRange (n : ℤ) : (intRange n).length = n.toNat := by
  unfold intRange
  rw [List.length_map, List.length_range]

theorem mem_intRange {i n : ℤ} : i ∈ intRange n ↔ 0 ≤ i ∧ i < n := by
  unfold intRange
  rw [List.mem_map]
  constructor
  · rintro ⟨j, hj, rfl⟩
    rw [List.mem_range] at hj
    rw [Int.ofNat_eq_coe]
    have hj2 : (j : ℤ) < (n.toNat : ℤ) := by exact_mod_cast hj
    omega
  · rintro ⟨h0, hn⟩
    refine ⟨i.toNat, ?_, by rw [Int.ofNat_eq_coe]; omega⟩
    rw [List.mem_range]
    omega

theorem nodup_intRange (n : ℤ) : (intRange n).Nodup := by
  unfold intRange
  refine (List.nodup_range n.toNat).map ?_
  intro a b h
  rw [Int.ofNat_eq_coe, Int.ofNat_eq_coe] at h
  exact_mod_cast h

theorem filter_intRange_eq {i n : ℤ} (h0 : 0 ≤ i) (hn : i < n) :
    (intRange n).filter (fun m => m == i) = [i] := by
  rw [List.filter_beq]
  rw [List.count_eq_one_of_mem (nodup_intRange n) (mem_intRange.mpr ⟨h0, hn⟩)]
  rfl

theorem group_append (l₁ l₂ : List Prediction) (i : ℤ) :
    groupPredictionsByRunIndex (l₁ ++ l₂) i
      = groupPredictionsByRunIndex l₁ i ++ groupPredictionsByRunIndex l₂ i :=
  List.filter_append l₁ l₂

theorem group_predsFor (rand : RandomSource) (seed : String) (dv vv : ℚ) (rc : ℤ)
    (now : ℚ) (e : CashEvent) {i : ℤ} (h0 : 0 ≤ i) (hi : i < rc) :
    groupPredictionsByRunIndex (predsFor rand seed dv vv rc now e) i
      = if e.date < now then [] else [predFor rand seed dv vv i e] := by
  unfold predsFor groupPredictionsByRunIndex
  by_cases hpast : e.date < now
  · simp [hpast]
  · rw [if_neg hpast, if_neg hpast, List.filter_map]
    have hcomp : ((fun p => p.run == i) ∘ fun run => predFor rand seed dv vv run e)
        = fun m => m == i := rfl
    rw [hcomp, filter_intRange_eq h0 hi]
    rfl

theorem group_generatePredictions (rand : RandomSource) (rc : ℤ) (dv vv : ℚ)
    (seed : String) (now : ℚ) (events : List CashEvent) {i : ℤ}
    (h0 : 0 ≤ i) (hi : i < rc) :
    groupPredictionsByRunIndex (generatePredictions rand events rc dv vv seed now) i
      = (events.filter fun e => !decide (e.date < now)).map (predFor rand seed dv vv i) := by
  induction events with
  | nil => rfl
  | cons e es ih =>
    rw [generatePredictions_cons, group_append, ih, group_predsFor rand seed dv vv rc now e h0 hi]
    by_cases hpast : e.date < now
    · simp [hpast]
    · simp [hpast]

/-! getD bookkeeping for List.set and List.replicate. -/

theorem getD_set_self (l : List ℚ) (i : ℕ) (v : ℚ) (h : i < l.length) :
    (l.set i v).getD i 0 = v := by
  rw [List.getD_eq_getElem?_getD, List.getElem?_set_self h]
  rfl

theorem getD_set_ne (l : List ℚ) (i j : ℕ) (v : ℚ) (h : i ≠ j) :
    (l.set i v).getD j 0 = l.getD j 0 := by
  rw [List.getD_eq_getElem?_getD, List.getElem?_set_ne h, ← List.getD_eq_getElem?_getD]

theorem getD_replicate_zero (n d : ℕ) : (List.replicate n (0:ℚ)).getD d 0 = 0 := by
  induction n generalizing d with
  | zero => rfl
  | succ m ih =>
    cases d with
    | zero => rfl
    | succ d' => rw [List.replicate_succ, List.getD_cons_succ]; exact ih d'

/-! The delta accumulator sums same-day values. -/

theorem getD_applyDeltas (pairs : List (ℤ × ℚ)) (init : List ℚ) (d : ℕ)
    (hin : ∀ pr ∈ pairs, pr.1.toNat < init.length) :
    (applyDeltas pairs init).getD d 0 = init.getD d 0 + sumDeltaAt pairs d := by
  induction pairs generalizing init with
  | nil => simp [applyDeltas, sumDeltaAt]
  | cons pr rest ih =>
    rw [applyDeltas_cons,
      ih _ (fun q hq => by rw [List.length_set]; exact hin q (List.mem_cons_of_mem _ hq))]
    unfold sumDeltaAt
    by_cases hd : pr.1.toNat = d
    · rw [hd, getD_set_self _ _ _ (hd ▸ hin pr (List.mem_cons_self _ _))]
      simp only [List.filter_cons, hd, beq_self_eq_true, if_true, List.map_cons, List.sum_cons]
      ring
    · rw [getD_set_ne _ _ _ _ hd]
      simp only [List.filter_cons, beq_iff_eq, hd, if_false]

/-! The cumulation loop satisfies the stated recurrence. -/

theorem cumGo_getD_zero (p : ℚ) (l : List ℚ) (h : l ≠ []) :
    (cumGo p l).getD 0 0 = p + l.getD 0 0 := by
  cases l with
  | nil => exact absurd rfl h
  | cons d ds => rfl

theorem cumGo_getD_succ (l : List ℚ) (p : ℚ) (i : ℕ) (h : i + 1 < l.length) :
    (cumGo p l).getD (i+1) 0 = (cumGo p l).getD i 0 + l.getD (i+1) 0 := by
  induction l generalizing p i with
  | nil => simp at h
  | cons d ds ih =>
    cases i with
    | zero =>
      have hds : ds ≠ [] := by
        intro hnil
        rw [hnil] at h
        simp at h
      show (cumGo (p + d) ds).getD 0 0 = (p + d) + ds.getD 0 0
      exact cumGo_getD_zero _ _ hds
    | succ j =>
      show (cumGo (p + d) ds).getD (j+1) 0 = (cumGo (p + d) ds).getD j 0 + ds.getD (j+1) 0
      exact ih _ _ (by simpa using h)

theorem cumulate_getD_zero (sb : ℚ) (l : List ℚ) (h : l ≠ []) :
    (cumulate sb l).getD 0 0 = sb + l.getD 0 0 := by
  cases l with
  | nil => exact absurd rfl h
  | cons d ds => rfl

theorem cumulate_getD_succ (sb : ℚ) (l : List ℚ) (i : ℕ) (h : i + 1 < l.length) :
    (cumulate sb l).getD (i+1) 0 = (cumulate sb l).getD i 0 + l.getD (i+1) 0 := by
  cases l with
  | nil => simp at h
  | cons d ds =>
    cases i with
    | zero =>
      have hds : ds ≠ [] := by
        intro hnil
        rw [hnil] at h
        simp at h
      show (cumGo (sb + d) ds).getD 0 0 = (sb + d) + ds.getD 0 0
      exact cumGo_getD_zero _ _ hds
    | succ j =>
      show (cumGo (sb + d) ds).getD (j+1) 0 = (cumGo (sb + d) ds).getD j 0 + ds.getD (j+1) 0
      exact cumGo_getD_succ _ _ _ (by simpa using h)

theorem computeBalanceForRun_eq (now : ℚ) (L : ℤ) (sb : ℚ) (preds : List Prediction) :
    computeBalanceForRun now L sb preds
      = cumulate sb (applyDeltas (inWindowPairs now L preds) (List.replicate L.toNat 0)) := rfl

theorem inWindowPairs_bound (now : ℚ) (L : ℤ) (preds : List Prediction) :
    ∀ pr ∈ inWindowPairs now L preds, pr.1.toNat < L.toNat := by
  intro pr hpr
  unfold inWindowPairs at hpr
  have := List.of_mem_filter hpr
  rw [Bool.and_eq_true, decide_eq_true_eq, decide_eq_true_eq] at this
  omega

theorem getD_delta (now : ℚ) (L : ℤ) (preds : List Prediction) (d : ℕ) :
    (applyDeltas (inWindowPairs now L preds) (List.replicate L.toNat 0)).getD d 0
      = sumDeltaAt (inWindowPairs now L preds) d := by
  rw [getD_applyDeltas _ _ _ (fun pr hpr => by
      rw [List.length_replicate]; exact inWindowPairs_bound now L preds pr hpr),
    getD_replicate_zero, zero_add]

theorem startOfDay_le (t : ℚ) : startOfDay t ≤ t := by
  unfold startOfDay msPerDay
  have h := Int.floor_le (t / 86400000)
  calc (⌊t / (86400000:ℚ)⌋ : ℚ) * 86400000 ≤ t / 86400000 * 86400000 := by linarith
    _ = t := by field_simp

theorem intRange_getElem (n : ℤ) (j : ℕ) (h : j < (intRange n).length) :
    (intRange n)[j] = Int.ofNat j := by
  unfold intRange at h ⊢
  rw [List.getElem_map]
  congr 1
  apply List.getElem_range

theorem getD_computeBalance (now : ℚ) (RC RL : ℤ) (SB : ℚ) (preds : List Prediction)
    (j : ℕ) (h : j < RC.toNat) :
    (computeBalance now RC RL SB preds).getD j []
      = computeBalanceForRun now RL SB (groupPredictionsByRunIndex preds (Int.ofNat j)) := by
  unfold computeBalance
  have hlen : j < ((intRange RC).map fun runIndex =>
      computeBalanceForRun now RL SB (groupPredictionsByRunIndex preds runIndex)).length := by
    rw [List.length_map, length_intRange]
    exact h
  rw [List.getD_eq_getElem?_getD, List.getElem?_eq_getElem hlen, Option.getD_some,
    List.getElem_map, intRange_getElem]

theorem generate_runs_balanceSeries (rand : RandomSource) (events : List CashEvent)
    (opts : SimulationOptions) (seed : String) (now : ℚ) :
    ∀ r ∈ (generate rand events opts seed now).runs,
      r.balanceSeries.length = (opts.runLength.getD 60).toNat := by
  intro r hr
  unfold generate at hr
  rw [List.mem_map] at hr
  obtain ⟨i, hi, rfl⟩ := hr
  obtain ⟨h0, hlt⟩ := mem_intRange.mp hi
  show ((computeBalance now _ _ _ _).getD i.toNat []).length = _
  rw [getD_computeBalance _ _ _ _ _ _ (by omega), length_computeBalanceForRun]

theorem length_reduceToPercentiles (runs : List SimulationRun) :
    (reduceToPercentiles runs).length
      = ((runs.head?.map fun r => r.balanceSeries.length).getD 0) := by
  unfold reduceToPercentiles
  rw [List.length_map, List.length_range]

theorem generate_runs_length (rand : RandomSource) (events : List CashEvent)
    (opts : SimulationOptions) (seed : String) (now : ℚ) :
    (generate rand events opts seed now).runs.length = (opts.runCount.getD 20).toNat := by
  unfold generate
  rw [List.length_map, length_intRange]

theorem generatePredictions_append (rand : RandomSource) (rc : ℤ) (dv vv : ℚ)
    (seed : String) (now : ℚ) (es₁ es₂ : List CashEvent) :
    generatePredictions rand (es₁ ++ es₂) rc dv vv seed now
      = generatePredictions rand es₁ rc dv vv seed now
        ++ generatePredictions rand es₂ rc dv vv seed now := by
  induction es₁ with
  | nil => simp [generatePredictions_nil]
  | cons e es ih =>
    rw [List.cons_append, generatePredictions_cons, generatePredictions_cons, ih,
      List.append_assoc]

/-! Frame lemmas: out-of-window predictions are discarded. -/

theorem inWindowPairs_append (now : ℚ) (L : ℤ) (l₁ l₂ : List Prediction) :
    inWindowPairs now L (l₁ ++ l₂) = inWindowPairs now L l₁ ++ inWindowPairs now L l₂ := by
  unfold inWindowPairs
  rw [List.map_append, List.filter_append]

theorem inWindowPairs_out_cons (now : ℚ) (L : ℤ) (p : Prediction) (l : List Prediction)
    (h : dayOffsetOf now p < 0 ∨ L ≤ dayOffsetOf now p) :
    inWindowPairs now L (p :: l) = inWindowPairs now L l := by
  unfold inWindowPairs
  rw [List.map_cons, List.filter_cons]
  have hcond : (decide (0 ≤ (dayOffsetOf now p, p.value).1)
      && decide ((dayOffsetOf now p, p.value).1 < L)) = false := by
    rcases h with h | h
    · have : ¬ (0 ≤ dayOffsetOf now p) := by omega
      simp [this]
    · have : ¬ (dayOffsetOf now p < L) := by omega
      simp [this]
  rw [hcond]
  simp only [Bool.false_eq_true, if_false]

theorem computeBalanceForRun_out_of_window (now : ℚ) (L : ℤ) (sb : ℚ)
    (l₁ l₂ : List Prediction) (p : Prediction)
    (h : dayOffsetOf now p < 0 ∨ L ≤ dayOffsetOf now p) :
    computeBalanceForRun now L sb (l₁ ++ p :: l₂)
      = computeBalanceForRun now L sb (l₁ ++ l₂) := by
  rw [computeBalanceForRun_eq, computeBalanceForRun_eq, inWindowPairs_append,
    inWindowPairs_append, inWindowPairs_out_cons now L p l₂ h]

theorem group_cons (p : Prediction) (l : List Prediction) (i : ℤ) :
    groupPredictionsByRunIndex (p :: l) i
      = if p.run == i then p :: groupPredictionsByRunIndex l i
        else groupPredictionsByRunIndex l i := by
  unfold groupPredictionsByRunIndex
  rw [List.filter_cons]

theorem computeBalance_out_of_window (now : ℚ) (RC L : ℤ) (sb : ℚ)
    (l₁ l₂ : List Prediction) (p : Prediction)
    (h : dayOffsetOf now p < 0 ∨ L ≤ dayOffsetOf now p) :
    computeBalance now RC L sb (l₁ ++ p :: l₂) = computeBalance now RC L sb (l₁ ++ l₂) := by
  unfold computeBalance
  apply List.map_congr_left
  intro i _
  rw [group_append, group_append, group_cons]
  by_cases hrun : p.run == i
  · rw [if_pos hrun]
    exact computeBalanceForRun_out_of_window now L sb _ _ p h
  · rw [if_neg hrun]

/-! Past events contribute nothing. -/

theorem predsFor_past (rand : RandomSource) (seed : String) (dv vv : ℚ) (rc : ℤ)
    (now : ℚ) (e : CashEvent) (h : e.date < now) :
    predsFor rand seed dv vv rc now e = [] := by
  unfold predsFor
  rw [if_pos h]

theorem generatePredictions_skip_past (rand : RandomSource) (rc : ℤ) (dv vv : ℚ)
    (seed : String) (now : ℚ) (pre post : List CashEvent) (e : CashEvent)
    (h : e.date < now) :
    generatePredictions rand (pre ++ e :: post) rc dv vv seed now
      = generatePredictions rand (pre ++ post) rc dv vv seed now := by
  rw [generatePredictions_append, generatePredictions_cons,
    predsFor_past rand seed dv vv rc now e h, List.nil_append,
    generatePredictions_append]

theorem generate_skip_past (rand : RandomSource) (opts : SimulationOptions)
    (seed : String) (now : ℚ) (pre post : List CashEvent) (e : CashEvent)
    (h : e.date < now) :
    generate rand (pre ++ e :: post) opts seed now
      = generate rand (pre ++ post) opts seed now := by
  simp only [generate, generatePredictions_skip_past rand _ _ _ seed now pre post e h]

/-! The random stream consumed for a (run, event) pair is keyed by
(seed, run, event id) only. -/

theorem predFor_rand_congr (rand₁ rand₂ : RandomSource) (seed : String) (dv vv : ℚ)
    (run : ℤ) (e : CashEvent)
    (h : ∀ i, rand₁ (seedKey seed run e.ID) i = rand₂ (seedKey seed run e.ID) i) :
    predFor rand₁ seed dv vv run e = predFor rand₂ seed dv vv run e := by
  unfold predFor
  rw [h 0, h 1]

theorem predsFor_rand_congr (rand₁ rand₂ : RandomSource) (seed : String) (dv vv : ℚ)
    (rc : ℤ) (now : ℚ) (e : CashEvent)
    (h : ∀ (run : ℤ) (i : ℕ),
      rand₁ (seedKey seed run e.ID) i = rand₂ (seedKey seed run e.ID) i) :
    predsFor rand₁ seed dv vv rc now e = predsFor rand₂ seed dv vv rc now e := by
  unfold predsFor
  by_cases hpast : e.date < now
  · rw [if_pos hpast, if_pos hpast]
  · rw [if_neg hpast, if_neg hpast]
    apply List.map_congr_left
    intro run _
    exact predFor_rand_congr rand₁ rand₂ seed dv vv run e (h run)

theorem generatePredictions_rand_congr (rand₁ rand₂ : RandomSource) (rc : ℤ) (dv vv : ℚ)
    (seed : String) (now : ℚ) (events : List CashEvent)
    (h : ∀ (run : ℤ) (e : CashEvent), e ∈ events → ∀ i : ℕ,
      rand₁ (seedKey seed run e.ID) i = rand₂ (seedKey seed run e.ID) i) :
    generatePredictions rand₁ events rc dv vv seed now
      = generatePredictions rand₂ events rc dv vv seed now := by
  induction events with
  | nil => rfl
  | cons e es ih =>
    rw [generatePredictions_cons, generatePredictions_cons,
      predsFor_rand_congr rand₁ rand₂ seed dv vv rc now e
        (fun run i => h run e (List.mem_cons_self e es) i),
      ih (fun run e' he' i => h run e' (List.mem_cons_of_mem e he') i)]

/-! getD as getElem, and sorted samples. -/

theorem getD_eq_getElem (s : List ℚ) (i : ℕ) (h : i < s.length) : s.getD i 0 = s[i] := by
  rw [List.getD_eq_getElem?_getD, List.getElem?_eq_getElem h]
  rfl

theorem getD_eq_zero_of_le (s : List ℚ) (i : ℕ) (h : s.length ≤ i) : s.getD i 0 = 0 := by
  rw [List.getD_eq_getElem?_getD, List.getElem?_eq_none h]
  rfl

theorem getD_mem (s : List ℚ) (i : ℕ) (h : i < s.length) : s.getD i 0 ∈ s := by
  rw [getD_eq_getElem s i h]
  exact List.getElem_mem h

theorem sorted_getD_mono (s : List ℚ) (hs : List.Sorted (· ≤ ·) s) {i j : ℕ}
    (hij : i ≤ j) (hj : j < s.length) : s.getD i 0 ≤ s.getD j 0 := by
  have hi : i < s.length := lt_of_le_of_lt hij hj
  rw [getD_eq_getElem s i hi, getD_eq_getElem s j hj]
  have h := hs.rel_get_of_le (a := ⟨i, hi⟩) (b := ⟨j, hj⟩) hij
  simpa using h

theorem sorted_sortBalances (l : List ℚ) : List.Sorted (· ≤ ·) (sortBalances l) := by
  unfold sortBalances
  have trans : ∀ (a b c : ℚ), decide (a ≤ b) = true → decide (b ≤ c) = true →
      decide (a ≤ c) = true := by
    intro a b c h1 h2
    simp only [decide_eq_true_eq] at h1 h2 ⊢
    exact le_trans h1 h2
  have total : ∀ (a b : ℚ), (decide (a ≤ b) || decide (b ≤ a)) = true := by
    intro a b
    simp only [Bool.or_eq_true, decide_eq_true_eq]
    exact le_total a b
  exact (List.sorted_mergeSort trans total l).imp fun hab => of_decide_eq_true hab

theorem mem_sortBalances {x : ℚ} {l : List ℚ} : x ∈ sortBalances l ↔ x ∈ l := by
  unfold sortBalances
  exact List.mem_mergeSort

theorem length_sortBalances (l : List ℚ) : (sortBalances l).length = l.length := by
  unfold sortBalances
  exact List.length_mergeSort l

/-! Rank-index bounds and interpolation facts for the percentile function. -/

theorem rankIndex_nonneg (s : List ℚ) (p : ℚ) (hp : 0 ≤ p) (hn : 1 ≤ s.length) :
    0 ≤ rankIndex s p := by
  unfold rankIndex
  have h1 : (1:ℚ) ≤ (s.length : ℚ) := by exact_mod_cast hn
  have h2 : (0:ℚ) ≤ p / 100 := by positivity
  nlinarith

theorem rankIndex_le (s : List ℚ) (p : ℚ) (hp1 : p ≤ 100) (hp0 : 0 ≤ p)
    (hn : 1 ≤ s.length) : rankIndex s p ≤ (s.length : ℚ) - 1 := by
  unfold rankIndex
  have h1 : (1:ℚ) ≤ (s.length : ℚ) := by exact_mod_cast hn
  have h2 : p / 100 ≤ 1 := by linarith
  have h3 : (0:ℚ) ≤ p / 100 := by positivity
  nlinarith

theorem rankIndex_mono (s : List ℚ) {p q : ℚ} (hpq : p ≤ q) (hn : 1 ≤ s.length) :
    rankIndex s p ≤ rankIndex s q := by
  unfold rankIndex
  have h1 : (1:ℚ) ≤ (s.length : ℚ) := by exact_mod_cast hn
  have h2 : p / 100 ≤ q / 100 := by linarith
  nlinarith

theorem percentile_index_bounds (s : List ℚ) (t : ℚ) (h0 : 0 ≤ t)
    (ht : t ≤ (s.length : ℚ) - 1) :
    0 ≤ ⌊t⌋ ∧ ⌊t⌋.toNat < s.length ∧ ⌈t⌉.toNat < s.length ∧ ⌊t⌋.toNat ≤ ⌈t⌉.toNat := by
  have hf0 : 0 ≤ ⌊t⌋ := Int.le_floor.mpr (by exact_mod_cast h0)
  have hlen : 1 ≤ s.length := by
    by_contra hcon
    have : s.length = 0 := by omega
    rw [this] at ht
    norm_num at ht
    linarith
  have hcast : t ≤ (((s.length : ℤ) - 1 : ℤ) : ℚ) := by push_cast; linarith
  have hceil : ⌈t⌉ ≤ (s.length : ℤ) - 1 := Int.ceil_le.mpr hcast
  have hfc : ⌊t⌋ ≤ ⌈t⌉ := Int.floor_le_ceil t
  refine ⟨hf0, by omega, by omega, by omega⟩

theorem interpAt_bounds (s : List ℚ) (hs : List.Sorted (· ≤ ·) s) (t : ℚ)
    (h0 : 0 ≤ t) (ht : t ≤ (s.length : ℚ) - 1) :
    s.getD ⌊t⌋.toNat 0 ≤ interpAt s t ∧ interpAt s t ≤ s.getD ⌈t⌉.toNat 0 := by
  obtain ⟨hf0, hflt, hclt, hle⟩ := percentile_index_bounds s t h0 ht
  have hw0 : 0 ≤ t - (⌊t⌋ : ℚ) := by linarith [Int.floor_le t]
  have hw1 : t - (⌊t⌋ : ℚ) ≤ 1 := by linarith [Int.lt_floor_add_one t]
  have hab : s.getD ⌊t⌋.toNat 0 ≤ s.getD ⌈t⌉.toNat 0 := sorted_getD_mono s hs hle hclt
  unfold interpAt
  constructor
  · nlinarith [mul_nonneg hw0 (sub_nonneg.mpr hab)]
  · nlinarith [mul_nonneg (by linarith : (0:ℚ) ≤ 1 - (t - (⌊t⌋ : ℚ))) (sub_nonneg.mpr hab)]

theorem interpAt_mono (s : List ℚ) (hs : List.Sorted (· ≤ ·) s) {t₁ t₂ : ℚ}
    (h0 : 0 ≤ t₁) (h12 : t₁ ≤ t₂) (h2 : t₂ ≤ (s.length : ℚ) - 1) :
    interpAt s t₁ ≤ interpAt s t₂ := by
  have h01 : 0 ≤ t₂ := le_trans h0 h12
  have h1 : t₁ ≤ (s.length : ℚ) - 1 := le_trans h12 h2
  obtain ⟨hf10, hf1lt, hc1lt, hle1⟩ := percentile_index_bounds s t₁ h0 h1
  obtain ⟨hf20, hf2lt, hc2lt, hle2⟩ := percentile_index_bounds s t₂ h01 h2
  by_cases hc : ⌈t₁⌉ ≤ ⌊t₂⌋
  · have hstep1 : interpAt s t₁ ≤ s.getD ⌈t₁⌉.toNat 0 := (interpAt_bounds s hs t₁ h0 h1).2
    have hstep2 : s.getD ⌈t₁⌉.toNat 0 ≤ s.getD ⌊t₂⌋.toNat 0 :=
      sorted_getD_mono s hs (by omega) hf2lt
    have hstep3 : s.getD ⌊t₂⌋.toNat 0 ≤ interpAt s t₂ := (interpAt_bounds s hs t₂ h01 h2).1
    linarith
  · push_neg at hc
    have hff : ⌊t₁⌋ ≤ ⌊t₂⌋ := Int.floor_le_floor h12
    have hceil1 : ⌈t₁⌉ ≤ ⌊t₁⌋ + 1 := Int.ceil_le_floor_add_one t₁
    have hfc1 : ⌊t₁⌋ ≤ ⌈t₁⌉ := Int.floor_le_ceil t₁
    have hkeq : ⌊t₁⌋ = ⌊t₂⌋ := by omega
    have hc1 : ⌈t₁⌉ = ⌊t₁⌋ + 1 := by omega
    have ht1 : (⌊t₁⌋ : ℚ) < t₁ := by
      rcases eq_or_lt_of_le (Int.floor_le t₁) with heq | hlt
    -- if t₁ were an integer its ceiling would equal its floor
      · exfalso
        rw [← heq, Int.ceil_intCast, Int.floor_intCast] at hc1
        omega
      · exact hlt
    have ht2 : (⌊t₂⌋ : ℚ) < t₂ := by
      have : ((⌊t₂⌋ : ℤ) : ℚ) = ((⌊t₁⌋ : ℤ) : ℚ) := by exact_mod_cast hkeq.symm
      linarith
    have hc2 : ⌈t₂⌉ = ⌊t₂⌋ + 1 := by
      have hlow : ⌊t₂⌋ < ⌈t₂⌉ := by
        by_contra hcon
        push_neg at hcon
        have hup := Int.le_ceil t₂
        have hcast : ((⌈t₂⌉ : ℤ) : ℚ) ≤ ((⌊t₂⌋ : ℤ) : ℚ) := by exact_mod_cast hcon
        linarith
      have := Int.ceil_le_floor_add_one t₂
      omega
    have hblt : (⌊t₂⌋ + 1).toNat < s.length := by rw [← hc2]; exact hc2lt
    have hab : s.getD ⌊t₂⌋.toNat 0 ≤ s.getD (⌊t₂⌋ + 1).toNat 0 :=
      sorted_getD_mono s hs (by omega) hblt
    unfold interpAt
    rw [hc1, hc2, hkeq]
    have hw12 : t₁ - ((⌊t₂⌋ : ℤ) : ℚ) ≤ t₂ - ((⌊t₂⌋ : ℤ) : ℚ) := by linarith
    nlinarith [mul_nonneg (sub_nonneg.mpr hw12) (sub_nonneg.mpr hab)]

theorem getPercentile_eq (s : List ℚ) (p : ℚ) :
    getPercentile s p
      = if (⌊rankIndex s p⌋ : ℤ) = ⌈rankIndex s p⌉ then s.getD ⌊rankIndex s p⌋.toNat 0
        else round3 (interpAt s (rankIndex s p)) := rfl

theorem grid3_round3 (x : ℚ) : grid3 (round3 x) := by
  unfold grid3 round3
  have h : ((roundJS (x * 1000) : ℤ) : ℚ) / 1000 * 1000 = ((roundJS (x * 1000) : ℤ) : ℚ) := by
    field_simp
  rw [h, Rat.den_intCast]

theorem interpAt_of_floor_eq_ceil (s : List ℚ) (t : ℚ) (h : (⌊t⌋ : ℤ) = ⌈t⌉) :
    interpAt s t = s.getD ⌊t⌋.toNat 0 := by
  have hcast : ((⌈t⌉ : ℤ) : ℚ) = ((⌊t⌋ : ℤ) : ℚ) := by exact_mod_cast h.symm
  have hw : t - ((⌊t⌋ : ℤ) : ℚ) = 0 := by
    have h1 := Int.floor_le t
    have h2 := Int.le_ceil t
    linarith
  unfold interpAt
  rw [hw]
  ring

theorem getPercentile_eq_round3_interp (s : List ℚ) (hg : ∀ x ∈ s, grid3 x) (p : ℚ)
    (h0 : 0 ≤ p) (h1 : p ≤ 100) (hn : 1 ≤ s.length) :
    getPercentile s p = round3 (interpAt s (rankIndex s p)) := by
  rw [getPercentile_eq]
  by_cases h : (⌊rankIndex s p⌋ : ℤ) = ⌈rankIndex s p⌉
  · rw [if_pos h, interpAt_of_floor_eq_ceil s _ h]
    obtain ⟨-, hflt, -, -⟩ := percentile_index_bounds s (rankIndex s p)
      (rankIndex_nonneg s p h0 hn) (rankIndex_le s p h1 h0 hn)
    rw [round3_of_grid3 (hg _ (getD_mem s _ hflt))]
  · rw [if_neg h]

theorem getPercentile_mono (s : List ℚ) (hs : List.Sorted (· ≤ ·) s)
    (hg : ∀ x ∈ s, grid3 x) (hn : 1 ≤ s.length) {p q : ℚ}
    (hp0 : 0 ≤ p) (hpq : p ≤ q) (hq : q ≤ 100) :
    getPercentile s p ≤ getPercentile s q := by
  rw [getPercentile_eq_round3_interp s hg p hp0 (le_trans hpq hq) hn,
    getPercentile_eq_round3_interp s hg q (le_trans hp0 hpq) hq hn]
  exact round3_mono (interpAt_mono s hs (rankIndex_nonneg s p hp0 hn)
    (rankIndex_mono s hpq hn) (rankIndex_le s q hq (le_trans hp0 hpq) hn))

theorem getD_replicate (n : ℕ) (c : ℚ) (i : ℕ) (h : i < n) :
    (List.replicate n c).getD i 0 = c := by
  rw [getD_eq_getElem _ _ (by rw [List.length_replicate]; exact h)]
  exact List.getElem_replicate c _

theorem getPercentile_replicate (n : ℕ) (c p : ℚ) (hn : 1 ≤ n) (h0 : 0 ≤ p)
    (h1 : p ≤ 100) :
    getPercentile (List.replicate n c) p = c
    ∨ getPercentile (List.replicate n c) p = round3 c := by
  have hlen : (List.replicate n c).length = n := List.length_replicate n c
  obtain ⟨-, hflt, hclt, -⟩ := percentile_index_bounds (List.replicate n c)
    (rankIndex (List.replicate n c) p)
    (rankIndex_nonneg _ p h0 (by omega))
    (rankIndex_le _ p h1 h0 (by omega))
  rw [hlen] at hflt hclt
  rw [getPercentile_eq]
  by_cases h : (⌊rankIndex (List.replicate n c) p⌋ : ℤ) = ⌈rankIndex (List.replicate n c) p⌉
  · left
    rw [if_pos h, getD_replicate n c _ hflt]
  · right
    rw [if_neg h]
    congr 1
    unfold interpAt
    rw [getD_replicate n c _ hflt, getD_replicate n c _ hclt]
    ring

/-! Zero-variance jitter is the identity. -/

theorem applyValueJitter_zero (v r : ℚ) : applyValueJitter v 0 r = v := by
  unfold applyValueJitter
  ring

theorem applyDateJitter_zero (d r : ℚ) : applyDateJitter d 0 r = d := by
  unfold applyDateJitter roundJS
  have h : 2 * (0:ℚ) * r - 0 = 0 := by ring
  rw [h, show ⌊(0:ℚ) + 1/2⌋ = 0 by norm_num]
  norm_num

theorem predFor_zero_variance (rand : RandomSource) (seed : String) (run : ℤ)
    (e : CashEvent) :
    predFor rand seed 0 0 run e = { run := run, occursOn := e.date, value := e.value } := by
  unfold predFor
  rw [applyValueJitter_zero, applyDateJitter_zero]

/-! With both variances zero every run produces the same balance series. -/

theorem computeBalanceForRun_group_zero_var (rand : RandomSource) (seed : String)
    (rc L : ℤ) (sb now : ℚ) (events : List CashEvent) {i j : ℤ}
    (hi0 : 0 ≤ i) (hilt : i < rc) (hj0 : 0 ≤ j) (hjlt : j < rc) :
    computeBalanceForRun now L sb
        (groupPredictionsByRunIndex (generatePredictions rand events rc 0 0 seed now) i)
      = computeBalanceForRun now L sb
        (groupPredictionsByRunIndex (generatePredictions rand events rc 0 0 seed now) j) := by
  rw [computeBalanceForRun_eq, computeBalanceForRun_eq]
  congr 1
  unfold inWindowPairs
  rw [group_generatePredictions rand rc 0 0 seed now events hi0 hilt,
    group_generatePredictions rand rc 0 0 seed now events hj0 hjlt,
    List.map_map, List.map_map]
  apply congrArg (fun pairs => applyDeltas pairs (List.replicate L.toNat 0))
  apply congrArg
  apply List.map_congr_left
  intro e _
  show (fun p => (dayOffsetOf now p, p.value)) (predFor rand seed 0 0 i e)
    = (fun p => (dayOffsetOf now p, p.value)) (predFor rand seed 0 0 j e)
  rw [predFor_zero_variance, predFor_zero_variance]
  rfl

theorem generate_zero_var_series_eq (rand : RandomSource) (events : List CashEvent)
    (opts : SimulationOptions) (seed : String) (now : ℚ)
    (hdv : opts.dateVarianceDays.getD 10 = 0) (hvv : opts.valueVariancePct.getD 20 = 0) :
    ∀ r₁ ∈ (generate rand events opts seed now).runs,
      ∀ r₂ ∈ (generate rand events opts seed now).runs,
        r₁.balanceSeries = r₂.balanceSeries := by
  intro r₁ h₁ r₂ h₂
  simp only [generate, hdv, hvv] at h₁ h₂
  rw [List.mem_map] at h₁ h₂
  obtain ⟨i, hi, rfl⟩ := h₁
  obtain ⟨j, hj, rfl⟩ := h₂
  obtain ⟨hi0, hilt⟩ := mem_intRange.mp hi
  obtain ⟨hj0, hjlt⟩ := mem_intRange.mp hj
  dsimp only
  rw [getD_computeBalance _ _ _ _ _ _ (by omega), getD_computeBalance _ _ _ _ _ _ (by omega)]
  exact computeBalanceForRun_group_zero_var rand seed _ _ _ now events
    (by rw [Int.ofNat_eq_coe]; omega) (by rw [Int.ofNat_eq_coe]; omega)
    (by rw [Int.ofNat_eq_coe]; omega) (by rw [Int.ofNat_eq_coe]; omega)

/-! Claim theorems. -/

/-- C1: the spec requires the core to fail fast with a descriptive
configuration error on non-positive runCount/runLength.  The implementation
performs no validation: evaluated at the failing input runCount = 0 it
returns successfully, with an empty runs list and an empty forecast — the
degenerate output the claim says is prevented. -/
theorem C1_no_validation_degenerate_report :
    (generate constHalfRand [epsilonEvent] zeroRunCountOpts "s" 0).runs = []
    ∧ simulationForecast constHalfRand [epsilonEvent] zeroRunCountOpts "s" 0 = [] := by
  with_unfolding_all decide

/-- C7: a prediction whose rounded day offset is negative or at least
runLength is discarded: every balance series is unchanged by removing it. -/
theorem C7_out_of_window_is_discarded (now : ℚ) (RC L : ℤ) (sb : ℚ)
    (l₁ l₂ : List Prediction) (p : Prediction)
    (h : dayOffsetOf now p < 0 ∨ L ≤ dayOffsetOf now p) :
    computeBalance now RC L sb (l₁ ++ p :: l₂) = computeBalance now RC L sb (l₁ ++ l₂) :=
  computeBalance_out_of_window now RC L sb l₁ l₂ p h

/-- Witness for C7: a prediction 10 days out with runLength 5 does not change
the balance series. -/
theorem C7_witness :
    ((dayOffsetOf 0 { run := 0, occursOn := 864000000, value := 7 } < 0
      ∨ (5:ℤ) ≤ dayOffsetOf 0 { run := 0, occursOn := 864000000, value := 7 })
    ∧ computeBalance 0 1 5 0 (examplePreds ++ [{ run := 0, occursOn := 864000000, value := 7 }])
        = computeBalance 0 1 5 0 (examplePreds ++ [])) :=
  ⟨by with_unfolding_all decide,
   by
    have := C7_out_of_window_is_discarded 0 1 5 0 examplePreds []
      { run := 0, occursOn := 864000000, value := 7 } (by with_unfolding_all decide)
    simpa using this⟩

/-- C2: for every input events list and every valid options value (runCount ≥ 1,
runLength ≥ 1 after defaults), every balanceSeries in the returned runs has
length exactly runLength, and the returned forecast sequence has length exactly
runLength. -/
theorem C2_series_and_forecast_length (rand : RandomSource) (events : List CashEvent)
    (opts : SimulationOptions) (seed : String) (now : ℚ)
    (hrc : 1 ≤ opts.runCount.getD 20) (hrl : 1 ≤ opts.runLength.getD 60) :
    (∀ r ∈ (generate rand events opts seed now).runs,
        r.balanceSeries.length = (opts.runLength.getD 60).toNat)
    ∧ (simulationForecast rand events opts seed now).length
        = (opts.runLength.getD 60).toNat := by
  refine ⟨generate_runs_balanceSeries rand events opts seed now, ?_⟩
  unfold simulationForecast
  rw [length_reduceToPercentiles]
  have hne : (generate rand events opts seed now).runs ≠ [] := by
    intro hnil
    have hl := generate_runs_length rand events opts seed now
    rw [hnil] at hl
    simp only [List.length_nil] at hl
    omega
  obtain ⟨r0, rest, hcons⟩ := List.exists_cons_of_ne_nil hne
  rw [hcons]
  show r0.balanceSeries.length = (opts.runLength.getD 60).toNat
  exact generate_runs_balanceSeries rand events opts seed now r0
    (hcons ▸ List.mem_cons_self r0 rest)

/-- Witness for C2: a concrete run with runCount 3 and runLength 1. -/
theorem C2_witness :
    (1 ≤ zeroVarianceOpts.runCount.getD 20) ∧ (1 ≤ zeroVarianceOpts.runLength.getD 60)
    ∧ ((∀ r ∈ (generate constHalfRand [epsilonEvent] zeroVarianceOpts "s" 0).runs,
          r.balanceSeries.length = (zeroVarianceOpts.runLength.getD 60).toNat)
       ∧ (simulationForecast constHalfRand [epsilonEvent] zeroVarianceOpts "s" 0).length
           = (zeroVarianceOpts.runLength.getD 60).toNat) :=
  ⟨by with_unfolding_all decide, by with_unfolding_all decide,
   C2_series_and_forecast_length constHalfRand [epsilonEvent] zeroVarianceOpts "s" 0
     (by with_unfolding_all decide) (by with_unfolding_all decide)⟩

/-- C9: for every run, same-day predictions are first summed into per-day
deltas and the balance series is the cumulative sum with the starting balance
applied once at day 0: balance[0] = startingBalance + delta[0] and, for every
i ≥ 1, balance[i] = balance[i−1] + delta[i]. -/
theorem C9_balance_cumulation (now : ℚ) (L : ℤ) (sb : ℚ) (preds : List Prediction)
    (hL : 1 ≤ L) :
    (computeBalanceForRun now L sb preds).getD 0 0
        = sb + sumDeltaAt (inWindowPairs now L preds) 0
    ∧ ∀ i : ℕ, 1 ≤ i → i < L.toNat →
      (computeBalanceForRun now L sb preds).getD i 0
        = (computeBalanceForRun now L sb preds).getD (i-1) 0
          + sumDeltaAt (inWindowPairs now L preds) i := by
  rw [computeBalanceForRun_eq]
  have hlen : (applyDeltas (inWindowPairs now L preds) (List.replicate L.toNat 0)).length
      = L.toNat := by
    rw [length_applyDeltas, List.length_replicate]
  have hne : applyDeltas (inWindowPairs now L preds) (List.replicate L.toNat 0) ≠ [] := by
    intro h
    rw [h] at hlen
    simp only [List.length_nil] at hlen
    omega
  constructor
  · rw [cumulate_getD_zero _ _ hne, getD_delta]
  · intro i h1 h2
    obtain ⟨j, rfl⟩ : ∃ j, i = j + 1 := ⟨i - 1, by omega⟩
    rw [cumulate_getD_succ _ _ j (by rw [hlen]; omega), getD_delta]
    norm_num

/-- C5: with an explicit seed, the pipeline consumes randomness only through
the streams keyed by (seed, run, event id): any two random sources that agree
on those keys produce bit-identical runs and forecast, and each run's
prediction list decomposes as one `predFor` value per future event, a
function only of (seed, run index, event, variances, the keyed stream). -/
theorem C5_seeded_determinism (rand₁ rand₂ : RandomSource) (events : List CashEvent)
    (opts : SimulationOptions) (seed : String) (now : ℚ)
    (h : ∀ (run : ℤ) (e : CashEvent), e ∈ events → ∀ i : ℕ,
      rand₁ (seedKey seed run e.ID) i = rand₂ (seedKey seed run e.ID) i) :
    generate rand₁ events opts seed now = generate rand₂ events opts seed now
    ∧ simulationForecast rand₁ events opts seed now
        = simulationForecast rand₂ events opts seed now
    ∧ ∀ r ∈ (generate rand₁ events opts seed now).runs,
        r.predictions
          = (events.filter fun e => !decide (e.date < now)).map
              (predFor rand₁ seed (opts.dateVarianceDays.getD 10)
                (opts.valueVariancePct.getD 20) r.runIndex) := by
  have hgen : generate rand₁ events opts seed now = generate rand₂ events opts seed now := by
    simp only [generate,
      generatePredictions_rand_congr rand₁ rand₂ _ _ _ seed now events h]
  refine ⟨hgen, by unfold simulationForecast; rw [hgen], ?_⟩
  intro r hr
  unfold generate at hr
  rw [List.mem_map] at hr
  obtain ⟨i, hi, rfl⟩ := hr
  obtain ⟨h0, hlt⟩ := mem_intRange.mp hi
  exact group_generatePredictions rand₁ _ _ _ seed now events h0 hlt

/-- Witness for C5 at a concrete input (two equal random sources trivially
agree on the derived keys). -/
theorem C5_witness :
    generate constHalfRand [epsilonEvent] zeroVarianceOpts "s" 0
        = generate constHalfRand [epsilonEvent] zeroVarianceOpts "s" 0
    ∧ simulationForecast constHalfRand [epsilonEvent] zeroVarianceOpts "s" 0
        = simulationForecast constHalfRand [epsilonEvent] zeroVarianceOpts "s" 0
    ∧ ∀ r ∈ (generate constHalfRand [epsilonEvent] zeroVarianceOpts "s" 0).runs,
        r.predictions
          = ([epsilonEvent].filter fun e => !decide (e.date < 0)).map
              (predFor constHalfRand "s" (zeroVarianceOpts.dateVarianceDays.getD 10)
                (zeroVarianceOpts.valueVariancePct.getD 20) r.runIndex) :=
  C5_seeded_determinism constHalfRand constHalfRand [epsilonEvent] zeroVarianceOpts "s" 0
    (fun _ _ _ _ => rfl)

/-- C6: an event dated strictly before the start of today's day contributes
nothing: removing it changes neither the generated runs (predictions and
balance series alike) nor the forecast. -/
theorem C6_past_event_contributes_nothing (rand : RandomSource) (opts : SimulationOptions)
    (seed : String) (now : ℚ) (pre post : List CashEvent) (e : CashEvent)
    (h : e.date < startOfDay now) :
    generate rand (pre ++ e :: post) opts seed now = generate rand (pre ++ post) opts seed now
    ∧ simulationForecast rand (pre ++ e :: post) opts seed now
        = simulationForecast rand (pre ++ post) opts seed now := by
  have hlt : e.date < now := lt_of_lt_of_le h (startOfDay_le now)
  have hgen := generate_skip_past rand opts seed now pre post e hlt
  exact ⟨hgen, by unfold simulationForecast; rw [hgen]⟩

/-- Witness for C6: yesterday's event is dropped when "now" is noon of day 0. -/
theorem C6_witness :
    pastEvent.date < startOfDay noonNow
    ∧ generate constHalfRand ([] ++ pastEvent :: [epsilonEvent]) zeroVarianceOpts "s" noonNow
        = generate constHalfRand ([] ++ [epsilonEvent]) zeroVarianceOpts "s" noonNow
    ∧ simulationForecast constHalfRand ([] ++ pastEvent :: [epsilonEvent])
          zeroVarianceOpts "s" noonNow
        = simulationForecast constHalfRand ([] ++ [epsilonEvent]) zeroVarianceOpts "s" noonNow :=
  ⟨by with_unfolding_all decide,
   (C6_past_event_contributes_nothing constHalfRand zeroVarianceOpts "s" noonNow []
      [epsilonEvent] pastEvent (by with_unfolding_all decide)).1,
   (C6_past_event_contributes_nothing constHalfRand zeroVarianceOpts "s" noonNow []
      [epsilonEvent] pastEvent (by with_unfolding_all decide)).2⟩

/-- C4 counterexample: with both variances 0, runCount 3, runLength 1 and a
single event of value 0.0006 dated at the epoch, the forecast's only
PercentileDay has p25 = 0.001 but p50 = 0.0006, refuting the claimed
p10 = p25 = p50 = p75 = p90. -/
theorem C4_counterexample :
    ¬ (∀ pd ∈ simulationForecast constHalfRand [epsilonEvent] zeroVarianceOpts "s" 0,
        pd.p10 = pd.p25 ∧ pd.p25 = pd.p50 ∧ pd.p50 = pd.p75 ∧ pd.p75 = pd.p90) := by
  with_unfolding_all decide

/-- C4 (amended): with valueVariancePct and dateVarianceDays resolved to 0,
all runCount balance series are identical, and jitterValue(v,0) = v and
jitterDate(d,0) = d exactly, as claimed; the five percentiles of each
forecast day, however, are only equal up to 3-decimal rounding: each equals
either the common day value c or round3 c (all five equal c only when c lies
on the 1/1000 grid). -/
theorem C4_zero_variance_behaviour (rand : RandomSource) (events : List CashEvent)
    (opts : SimulationOptions) (seed : String) (now : ℚ)
    (hdv : opts.dateVarianceDays.getD 10 = 0) (hvv : opts.valueVariancePct.getD 20 = 0) :
    (∀ r₁ ∈ (generate rand events opts seed now).runs,
       ∀ r₂ ∈ (generate rand events opts seed now).runs,
         r₁.balanceSeries = r₂.balanceSeries)
    ∧ (∀ pd ∈ simulationForecast rand events opts seed now,
        ∃ c : ℚ,
          (∀ r ∈ (generate rand events opts seed now).runs,
            r.balanceSeries.getD pd.day 0 = c)
          ∧ (pd.p10 = c ∨ pd.p10 = round3 c) ∧ (pd.p25 = c ∨ pd.p25 = round3 c)
          ∧ (pd.p50 = c ∨ pd.p50 = round3 c) ∧ (pd.p75 = c ∨ pd.p75 = round3 c)
          ∧ (pd.p90 = c ∨ pd.p90 = round3 c))
    ∧ (∀ v r : ℚ, applyValueJitter v 0 r = v)
    ∧ (∀ d r : ℚ, applyDateJitter d 0 r = d) := by
  have hseries := generate_zero_var_series_eq rand events opts seed now hdv hvv
  refine ⟨hseries, ?_, applyValueJitter_zero, applyDateJitter_zero⟩
  intro pd hpd
  unfold simulationForecast reduceToPercentiles at hpd
  rw [List.mem_map] at hpd
  obtain ⟨d, hd, rfl⟩ := hpd
  rw [List.mem_range] at hd
  dsimp only
  have hne : (generate rand events opts seed now).runs ≠ [] := by
    intro hnil
    rw [hnil] at hd
    simp at hd
  obtain ⟨r0, rest, hcons⟩ := List.exists_cons_of_ne_nil hne
  have hr0 : r0 ∈ (generate rand events opts seed now).runs := by
    rw [hcons]
    exact List.mem_cons_self r0 rest
  have hall : ∀ r ∈ (generate rand events opts seed now).runs,
      r.balanceSeries.getD d 0 = r0.balanceSeries.getD d 0 := by
    intro r hr
    rw [hseries r hr r0 hr0]
  have hmapeq : ((generate rand events opts seed now).runs.map
        fun run => run.balanceSeries.getD d 0)
      = List.replicate (generate rand events opts seed now).runs.length
          (r0.balanceSeries.getD d 0) := by
    apply List.eq_replicate_iff.mpr
    refine ⟨List.length_map _ _, ?_⟩
    intro b hb
    rw [List.mem_map] at hb
    obtain ⟨r, hr, rfl⟩ := hb
    exact hall r hr
  have hsorteq : sortBalances ((generate rand events opts seed now).runs.map
        fun run => run.balanceSeries.getD d 0)
      = List.replicate (generate rand events opts seed now).runs.length
          (r0.balanceSeries.getD d 0) := by
    rw [hmapeq]
    unfold sortBalances
    apply List.mergeSort_of_sorted
    apply List.pairwise_replicate.mpr
    right
    exact decide_eq_true (le_refl _)
  have hlen1 : 1 ≤ (generate rand events opts seed now).runs.length := by
    rw [hcons]
    exact Nat.succ_le_succ (Nat.zero_le _)
  refine ⟨r0.balanceSeries.getD d 0, hall, ?_, ?_, ?_, ?_, ?_⟩ <;>
    first
    | (rw [hsorteq]; exact getPercentile_replicate _ _ _ hlen1 (by norm_num) (by norm_num))

/-- Witness for the amended C4 at a concrete zero-variance input. -/
theorem C4_witness :
    (zeroVarianceOpts.dateVarianceDays.getD 10 = 0
     ∧ zeroVarianceOpts.valueVariancePct.getD 20 = 0)
    ∧ ((∀ r₁ ∈ (generate constHalfRand [epsilonEvent] zeroVarianceOpts "s" 0).runs,
          ∀ r₂ ∈ (generate constHalfRand [epsilonEvent] zeroVarianceOpts "s" 0).runs,
            r₁.balanceSeries = r₂.balanceSeries)
       ∧ (∀ pd ∈ simulationForecast constHalfRand [epsilonEvent] zeroVarianceOpts "s" 0,
            ∃ c : ℚ,
              (∀ r ∈ (generate constHalfRand [epsilonEvent] zeroVarianceOpts "s" 0).runs,
                r.balanceSeries.getD pd.day 0 = c)
              ∧ (pd.p10 = c ∨ pd.p10 = round3 c) ∧ (pd.p25 = c ∨ pd.p25 = round3 c)
              ∧ (pd.p50 = c ∨ pd.p50 = round3 c) ∧ (pd.p75 = c ∨ pd.p75 = round3 c)
              ∧ (pd.p90 = c ∨ pd.p90 = round3 c))
       ∧ (∀ v r : ℚ, applyValueJitter v 0 r = v)
       ∧ (∀ d r : ℚ, applyDateJitter d 0 r = d)) :=
  ⟨⟨by with_unfolding_all decide, by with_unfolding_all decide⟩,
   C4_zero_variance_behaviour constHalfRand [epsilonEvent] zeroVarianceOpts "s" 0
     (by with_unfolding_all decide) (by with_unfolding_all decide)⟩

/-- C3 counterexample: the claimed invariant p10 ≤ p25 ≤ p50 ≤ p75 ≤ p90
fails on three runs whose common balance value 0.0006 is off the 1/1000 grid:
the interpolated p25 rounds up to 0.001 while the exact-rank p50 stays at
0.0006. -/
theorem C3_counterexample :
    ¬ (((reduceToPercentiles roundingRuns).getD 0 pdDefault).p10
          ≤ ((reduceToPercentiles roundingRuns).getD 0 pdDefault).p25
       ∧ ((reduceToPercentiles roundingRuns).getD 0 pdDefault).p25
          ≤ ((reduceToPercentiles roundingRuns).getD 0 pdDefault).p50
       ∧ ((reduceToPercentiles roundingRuns).getD 0 pdDefault).p50
          ≤ ((reduceToPercentiles roundingRuns).getD 0 pdDefault).p75
       ∧ ((reduceToPercentiles roundingRuns).getD 0 pdDefault).p75
          ≤ ((reduceToPercentiles roundingRuns).getD 0 pdDefault).p90) := by
  with_unfolding_all decide

/-- C3 (amended): for every list of runs with at least one run whose balance
values all carry at most 3 decimal places, every PercentileDay produced by
the percentile reducer satisfies p10 ≤ p25 ≤ p50 ≤ p75 ≤ p90.  (Without the
grid condition the 3-decimal rounding applied only to interpolated ranks can
push a lower percentile above an exact-rank higher one.) -/
theorem C3_percentile_order_on_grid (runs : List SimulationRun) (hne : runs ≠ [])
    (hg : ∀ r ∈ runs, ∀ x ∈ r.balanceSeries, grid3 x) :
    ∀ pd ∈ reduceToPercentiles runs,
      pd.p10 ≤ pd.p25 ∧ pd.p25 ≤ pd.p50 ∧ pd.p50 ≤ pd.p75 ∧ pd.p75 ≤ pd.p90 := by
  intro pd hpd
  unfold reduceToPercentiles at hpd
  rw [List.mem_map] at hpd
  obtain ⟨d, hd, rfl⟩ := hpd
  dsimp only
  have hsorted := sorted_sortBalances (runs.map fun run => run.balanceSeries.getD d 0)
  have hlen : 1 ≤ (sortBalances (runs.map fun run => run.balanceSeries.getD d 0)).length := by
    rw [length_sortBalances, List.length_map]
    have := List.length_pos.mpr hne
    omega
  have hgrid : ∀ x ∈ sortBalances (runs.map fun run => run.balanceSeries.getD d 0),
      grid3 x := by
    intro x hx
    rw [mem_sortBalances, List.mem_map] at hx
    obtain ⟨r, hr, rfl⟩ := hx
    by_cases hdr : d < r.balanceSeries.length
    · exact hg r hr _ (getD_mem _ _ hdr)
    · rw [getD_eq_zero_of_le _ _ (by omega)]
      exact grid3_zero
  exact ⟨getPercentile_mono _ hsorted hgrid hlen (by norm_num) (by norm_num) (by norm_num),
    getPercentile_mono _ hsorted hgrid hlen (by norm_num) (by norm_num) (by norm_num),
    getPercentile_mono _ hsorted hgrid hlen (by norm_num) (by norm_num) (by norm_num),
    getPercentile_mono _ hsorted hgrid hlen (by norm_num) (by norm_num) (by norm_num)⟩

/-- Witness for the amended C3 at the spec's five-run scenario (all balances
integers, hence on the grid). -/
theorem C3_witness :
    (exampleRuns ≠ [] ∧ ∀ r ∈ exampleRuns, ∀ x ∈ r.balanceSeries, grid3 x)
    ∧ ∀ pd ∈ reduceToPercentiles exampleRuns,
        pd.p10 ≤ pd.p25 ∧ pd.p25 ≤ pd.p50 ∧ pd.p50 ≤ pd.p75 ∧ pd.p75 ≤ pd.p90 :=
  ⟨⟨by with_unfolding_all decide, by with_unfolding_all decide⟩,
   C3_percentile_order_on_grid exampleRuns (by with_unfolding_all decide)
     (by with_unfolding_all decide)⟩

/-- C10: when lo ≠ hi the percentile function returns the interpolated value
rounded to 3 decimal places (so the result carries at most 3 decimals), and
when lo = hi it returns the sample value exactly, unrounded. -/
theorem C10_interpolated_values_rounded (sorted : List ℚ) (p : ℚ) :
    ((⌊rankIndex sorted p⌋ : ℤ) ≠ ⌈rankIndex sorted p⌉ →
      getPercentile sorted p = round3 (interpAt sorted (rankIndex sorted p))
      ∧ grid3 (getPercentile sorted p))
    ∧ ((⌊rankIndex sorted p⌋ : ℤ) = ⌈rankIndex sorted p⌉ →
      getPercentile sorted p = sorted.getD ⌊rankIndex sorted p⌋.toNat 0) := by
  constructor
  · intro h
    constructor
    · rw [getPercentile_eq, if_neg h]
    · rw [getPercentile_eq, if_neg h]
      exact grid3_round3 _
  · intro h
    rw [getPercentile_eq, if_pos h]

/-- Witness for C10: both branches evaluated on the two-element sample. -/
theorem C10_witness :
    ((⌊rankIndex offGridSample 50⌋ : ℤ) ≠ ⌈rankIndex offGridSample 50⌉)
    ∧ (getPercentile offGridSample 50
          = round3 (interpAt offGridSample (rankIndex offGridSample 50))
       ∧ grid3 (getPercentile offGridSample 50))
    ∧ ((⌊rankIndex offGridSample 100⌋ : ℤ) = ⌈rankIndex offGridSample 100⌉)
    ∧ getPercentile offGridSample 100
        = offGridSample.getD ⌊rankIndex offGridSample 100⌋.toNat 0 :=
  ⟨by with_unfolding_all decide,
   (C10_interpolated_values_rounded offGridSample 50).1 (by with_unfolding_all decide),
   by with_unfolding_all decide,
   (C10_interpolated_values_rounded offGridSample 100).2 (by with_unfolding_all decide)⟩

/-- C8 counterexample: the claim says the interpolated case returns exactly
sorted[lo]·(1−w) + sorted[hi]·w; at the sorted sample [0, 0.0003] and
percentile 50 the function instead returns the 3-decimal rounding 0 of the
exact interpolation 0.00015. -/
theorem C8_counterexample :
    getPercentile offGridSample 50 ≠ interpAt offGridSample (rankIndex offGridSample 50) := by
  with_unfolding_all decide

/-- C8 (amended): for every sorted sample of size n ≥ 1 and percentile p in
{10,25,50,75,90}, with idx = (p/100)·(n−1), lo = floor(idx), hi = ceil(idx),
the percentile function returns sorted[lo] when lo = hi and otherwise the
interpolation sorted[lo]·(1−w) + sorted[hi]·w rounded to 3 decimal places;
the spec's concrete reduction scenario yields p50 = 300, p10 = 140, p90 = 460
at day 0. -/
theorem C8_percentile_formula (sorted : List ℚ) (p : ℚ) (hn : 1 ≤ sorted.length)
    (hp : p = 10 ∨ p = 25 ∨ p = 50 ∨ p = 75 ∨ p = 90) :
    (getPercentile sorted p
      = if (⌊rankIndex sorted p⌋ : ℤ) = ⌈rankIndex sorted p⌉
        then sorted.getD ⌊rankIndex sorted p⌋.toNat 0
        else round3 (interpAt sorted (rankIndex sorted p)))
    ∧ ((reduceToPercentiles exampleRuns).getD 0 pdDefault).p50 = 300
    ∧ ((reduceToPercentiles exampleRuns).getD 0 pdDefault).p10 = 140
    ∧ ((reduceToPercentiles exampleRuns).getD 0 pdDefault).p90 = 460 :=
  ⟨getPercentile_eq sorted p, by with_unfolding_all decide,
   by with_unfolding_all decide, by with_unfolding_all decide⟩

/-- Witness for the amended C8 on a concrete sample and percentile. -/
theorem C8_witness :
    (1 ≤ offGridSample.length)
    ∧ ((10:ℚ) = 10 ∨ (10:ℚ) = 25 ∨ (10:ℚ) = 50 ∨ (10:ℚ) = 75 ∨ (10:ℚ) = 90)
    ∧ (getPercentile offGridSample 10
        = if (⌊rankIndex offGridSample 10⌋ : ℤ) = ⌈rankIndex offGridSample 10⌉
          then offGridSample.getD ⌊rankIndex offGridSample 10⌋.toNat 0
          else round3 (interpAt offGridSample (rankIndex offGridSample 10))) :=
  ⟨by with_unfolding_all decide, by norm_num,
   (C8_percentile_formula offGridSample 10 (by with_unfolding_all decide) (by norm_num)).1⟩

/-- Witness for C9: three same-day predictions of values 1000, −500, 300 give
a day-0 delta of 800 and a day-0 balance of 800. -/
theorem C9_witness :
    (1:ℤ) ≤ 3
    ∧ (computeBalanceForRun 0 3 0 examplePreds).getD 0 0
        = 0 + sumDeltaAt (inWindowPairs 0 3 examplePreds) 0
    ∧ sumDeltaAt (inWindowPairs 0 3 examplePreds) 0 = 800
    ∧ (computeBalanceForRun 0 3 0 examplePreds).getD 0 0 = 800 :=
  ⟨by decide, (C9_balance_cumulation 0 3 0 examplePreds (by decide)).1,
   by with_unfolding_all decide, by with_unfolding_all decide⟩

end Cashferatu
